import Mathlib

/-!
Verification of the relational data-access and reporting layer of the
College Event Participation Tracker (student / event / participation
tracking over a MySQL store).

The Python modules are shallowly embedded: the database is an explicit
in-memory state (`DBState`), each SQL statement is translated to the
corresponding pure list operation, and every mutating operation returns
the `(success, message)` pair of the source together with the post-state.
MySQL specifics are modelled as follows: `ORDER BY` becomes a stable
insertion sort by the order key, `COUNT(DISTINCT …)` becomes `dedup`
length, `LIKE` with the default case-insensitive collation becomes a
wildcard matcher over case-folded character lists, and `ROUND(x, 2)` on
the exact ratio of two counts is represented in hundredths with
half-away-from-zero rounding.  Python's `re.match` with a `$` anchor also
accepts a single trailing newline, which the embedding of `validate_usn`
reproduces.
-/

/-- A row of the `students` table (`usn` is the primary key). -/
structure Student where
  usn : String
  name : String
  department : String
  year : Int
deriving Repr, DecidableEq

/-- A row of the `events` table (`event_id` is an engine-assigned key). -/
structure Event where
  event_id : Nat
  name : String
  event_type : String
  department : String
  event_date : String
deriving Repr, DecidableEq

/-- A row of the `participation` table (`id` is an auto-increment key;
`usn` and `event_id` are foreign keys with `ON DELETE CASCADE`). -/
structure Participation where
  id : Nat
  usn : String
  event_id : Nat
  performance : String
deriving Repr, DecidableEq

/-- The database state: the three tables plus the auto-increment
counters for `events.event_id` and `participation.id`. -/
structure DBState where
  students : List Student
  events : List Event
  participation : List Participation
  nextEventId : Nat := 1
  nextPartId : Nat := 1
deriving Repr, DecidableEq

/-- Result of a mutating operation: the `(success, message)` pair the
Python functions return, together with the state after the operation. -/
structure OpResult where
  ok : Bool
  msg : String
  state : DBState
deriving Repr, DecidableEq

/-- `sub` occurs contiguously inside `s` (substring containment). -/
def strContains (s sub : String) : Prop := sub.data <:+: s.data

/-- `re.match(r'^\d[A-Z]{2}\d{2}[A-Z]{2}\d{3}$', ·)` body: one digit, two
uppercase letters, two digits, two uppercase letters, three digits. -/
def usnChars : List Char → Bool
  | [a, b, c, d, e, f, g, h, i, j] =>
    a.isDigit && b.isUpper && c.isUpper && d.isDigit && e.isDigit &&
    f.isUpper && g.isUpper && h.isDigit && i.isDigit && j.isDigit
  | _ => false

/-- `StudentModule.validate_usn`.  Python's `$` anchor matches at the end
of the string or just before a single final newline, so a valid USN
followed by `'\n'` is also accepted. -/
def validate_usn (usn : String) : Bool :=
  usnChars usn.data ||
    (usn.data.getLast? = some '\n' && usnChars usn.data.dropLast)

/-- `StudentModule.validate_year`: the year must lie in `1..5`. -/
def validate_year (year : Int) : Bool := 1 ≤ year && year ≤ 5

/-- Number of days in a month (`datetime` rejects out-of-range days). -/
def daysInMonth (y m : Nat) : Nat :=
  if m = 2 then
    if y % 4 = 0 && (y % 100 ≠ 0 || y % 400 = 0) then 29 else 28
  else if m = 4 || m = 6 || m = 9 || m = 11 then 30
  else 31

/-- `datetime.strptime(date, '%Y-%m-%d')` modelled on the zero-padded
`YYYY-MM-DD` shape: ten characters, digits in the digit positions,
month in `1..12`, day within the month. -/
def validate_date (s : String) : Bool :=
  match s.data with
  | [y1, y2, y3, y4, '-', m1, m2, '-', d1, d2] =>
    (y1.isDigit && y2.isDigit && y3.isDigit && y4.isDigit &&
     m1.isDigit && m2.isDigit && d1.isDigit && d2.isDigit) &&
    (let y := ((y1.toNat - 48) * 1000 + (y2.toNat - 48) * 100 +
               (y3.toNat - 48) * 10 + (y4.toNat - 48))
     let m := (m1.toNat - 48) * 10 + (m2.toNat - 48)
     let d := (d1.toNat - 48) * 10 + (d2.toNat - 48)
     1 ≤ m && m ≤ 12 && 1 ≤ d && d ≤ daysInMonth y m)
  | _ => false

/-- `DATE_FORMAT(event_date, '%Y-%m')`: the `YYYY-MM` part of the date. -/
def monthOf (date : String) : String := ⟨date.data.take 7⟩

/-- `StudentModule.get_student_by_usn`: `SELECT * FROM students WHERE
usn = %s` (first matching row). -/
def get_student_by_usn (st : DBState) (usn : String) : Option Student :=
  st.students.find? (fun s => decide (s.usn = usn))

/-- `StudentModule.add_student`: required-field check, USN format check,
year check, duplicate check, then `INSERT INTO students`. -/
def add_student (st : DBState) (usn name department : String) (year : Int) :
    OpResult :=
  if usn = "" ∨ name = "" ∨ department = "" ∨ year = 0 then
    ⟨false, "All fields are required", st⟩
  else if ¬ validate_usn usn then
    ⟨false, "Invalid USN format. Expected format: 1MS21CS001", st⟩
  else if ¬ validate_year year then
    ⟨false, "Year must be between 1 and 5", st⟩
  else
    match get_student_by_usn st usn with
    | some _ => ⟨false, "Student with USN " ++ usn ++ " already exists", st⟩
    | none =>
      ⟨true, "Student " ++ name ++ " (" ++ usn ++ ") added successfully",
       { st with students := st.students ++ [⟨usn, name, department, year⟩] }⟩

/-- `StudentModule.update_student`: required-field check, year check,
existence check, then `UPDATE students SET … WHERE usn = %s`. -/
def update_student (st : DBState) (usn name department : String)
    (year : Int) : OpResult :=
  if usn = "" ∨ name = "" ∨ department = "" ∨ year = 0 then
    ⟨false, "All fields are required", st⟩
  else if ¬ validate_year year then
    ⟨false, "Year must be between 1 and 5", st⟩
  else
    match get_student_by_usn st usn with
    | none => ⟨false, "Student with USN " ++ usn ++ " not found", st⟩
    | some _ =>
      ⟨true, "Student " ++ name ++ " (" ++ usn ++ ") updated successfully",
       { st with students := st.students.map (fun s =>
           if s.usn = usn then
             { s with name := name, department := department, year := year }
           else s) }⟩

/-- `StudentModule.delete_student`: existence check, then `DELETE FROM
students WHERE usn = %s`; the schema's `ON DELETE CASCADE` removes the
student's participation rows. -/
def delete_student (st : DBState) (usn : String) : OpResult :=
  match get_student_by_usn st usn with
  | none => ⟨false, "Student with USN " ++ usn ++ " not found", st⟩
  | some _ =>
    ⟨true, "Student with USN " ++ usn ++ " deleted successfully",
     { st with
       students := st.students.filter (fun s => decide (s.usn ≠ usn)),
       participation := st.participation.filter (fun p => decide (p.usn ≠ usn)) }⟩

/-- `EventModule.get_event_by_id`: `SELECT * FROM events WHERE
event_id = %s` (first matching row). -/
def get_event_by_id (st : DBState) (event_id : Nat) : Option Event :=
  st.events.find? (fun e => decide (e.event_id = event_id))

/-- `EventModule.add_event`: required-field check, date check, then
`INSERT INTO events` with an engine-assigned `event_id`. -/
def add_event (st : DBState) (name event_type department event_date : String) :
    OpResult :=
  if name = "" ∨ event_type = "" ∨ department = "" ∨ event_date = "" then
    ⟨false, "All fields are required", st⟩
  else if ¬ validate_date event_date then
    ⟨false, "Invalid date format. Use YYYY-MM-DD", st⟩
  else
    ⟨true, "Event " ++ name ++ " added successfully",
     { st with
       events := st.events ++
         [⟨st.nextEventId, name, event_type, department, event_date⟩],
       nextEventId := st.nextEventId + 1 }⟩

/-- `EventModule.update_event`: required-field check, date check,
existence check, then `UPDATE events SET … WHERE event_id = %s`. -/
def update_event (st : DBState) (event_id : Nat)
    (name event_type department event_date : String) : OpResult :=
  if event_id = 0 ∨ name = "" ∨ event_type = "" ∨ department = "" ∨
      event_date = "" then
    ⟨false, "All fields are required", st⟩
  else if ¬ validate_date event_date then
    ⟨false, "Invalid date format. Use YYYY-MM-DD", st⟩
  else
    match get_event_by_id st event_id with
    | none => ⟨false, "Event with ID " ++ toString event_id ++ " not found", st⟩
    | some _ =>
      ⟨true, "Event " ++ name ++ " updated successfully",
       { st with events := st.events.map (fun e =>
           if e.event_id = event_id then
             { e with name := name, event_type := event_type,
                      department := department, event_date := event_date }
           else e) }⟩

/-- `EventModule.delete_event`: existence check, then `DELETE FROM events
WHERE event_id = %s`; cascade removes the event's participation rows. -/
def delete_event (st : DBState) (event_id : Nat) : OpResult :=
  match get_event_by_id st event_id with
  | none => ⟨false, "Event with ID " ++ toString event_id ++ " not found", st⟩
  | some ev =>
    ⟨true, "Event " ++ ev.name ++ " deleted successfully",
     { st with
       events := st.events.filter (fun e => decide (e.event_id ≠ event_id)),
       participation :=
         st.participation.filter (fun p => decide (p.event_id ≠ event_id)) }⟩

/-- `ParticipationModule.get_participation`: `SELECT … FROM participation
WHERE usn = %s AND event_id = %s` (first matching row). -/
def get_participation (st : DBState) (usn : String) (event_id : Nat) :
    Option Participation :=
  st.participation.find? (fun p => decide (p.usn = usn ∧ p.event_id = event_id))

/-- `ParticipationModule.register_participation`: key checks, performance
check, student and event existence checks; then either `UPDATE
participation SET performance = %s WHERE usn = %s AND event_id = %s` on
the existing pair (reported as "Updated …") or `INSERT INTO
participation` (reported as "Registered …"). -/
def register_participation (st : DBState) (usn : String) (event_id : Nat)
    (performance : String := "Participant") : OpResult :=
  if usn = "" ∨ event_id = 0 then
    ⟨false, "Student USN and Event ID are required", st⟩
  else if ¬ (performance = "Winner" ∨ performance = "Runner-up" ∨
      performance = "Participant") then
    ⟨false, "Performance must be one of: Winner, Runner-up, Participant", st⟩
  else
    match get_student_by_usn st usn with
    | none => ⟨false, "Student with USN " ++ usn ++ " not found", st⟩
    | some student =>
      match get_event_by_id st event_id with
      | none =>
        ⟨false, "Event with ID " ++ toString event_id ++ " not found", st⟩
      | some event =>
        match get_participation st usn event_id with
        | some _ =>
          ⟨true, "Updated " ++ student.name ++ "\x27s participation in " ++
             event.name,
           { st with participation := st.participation.map (fun p =>
               if p.usn = usn ∧ p.event_id = event_id then
                 { p with performance := performance }
               else p) }⟩
        | none =>
          ⟨true, "Registered " ++ student.name ++ " for " ++ event.name,
           { st with
             participation := st.participation ++
               [⟨st.nextPartId, usn, event_id, performance⟩],
             nextPartId := st.nextPartId + 1 }⟩

/-- `ParticipationModule.update_performance`: performance check,
existence check, then `UPDATE participation SET performance = %s WHERE
usn = %s AND event_id = %s`. -/
def update_performance (st : DBState) (usn : String) (event_id : Nat)
    (performance : String) : OpResult :=
  if ¬ (performance = "Winner" ∨ performance = "Runner-up" ∨
      performance = "Participant") then
    ⟨false, "Performance must be one of: Winner, Runner-up, Participant", st⟩
  else
    match get_participation st usn event_id with
    | none =>
      ⟨false, "No participation record found for this student and event", st⟩
    | some _ =>
      ⟨true, "Updated " ++ ((get_student_by_usn st usn).elim "" (·.name)) ++
         "\x27s performance in " ++
         ((get_event_by_id st event_id).elim "" (·.name)) ++ " to " ++
         performance,
       { st with participation := st.participation.map (fun p =>
           if p.usn = usn ∧ p.event_id = event_id then
             { p with performance := performance }
           else p) }⟩

/-- `ParticipationModule.delete_participation`: existence check, then
`DELETE FROM participation WHERE usn = %s AND event_id = %s`. -/
def delete_participation (st : DBState) (usn : String) (event_id : Nat) :
    OpResult :=
  match get_participation st usn event_id with
  | none =>
    ⟨false, "No participation record found for this student and event", st⟩
  | some _ =>
    ⟨true, "Removed " ++ ((get_student_by_usn st usn).elim "" (·.name)) ++
       " from " ++ ((get_event_by_id st event_id).elim "" (·.name)),
     { st with participation := st.participation.filter (fun p =>
         decide (¬ (p.usn = usn ∧ p.event_id = event_id))) }⟩

/-- Case folding used by MySQL's default case-insensitive collation,
restricted to ASCII. -/
def ciKey (s : String) : List Char := s.data.map Char.toUpper

/-- MySQL `LIKE` pattern matching over character lists: `%` matches any
(possibly empty) sequence, `_` matches any single character, `\` escapes
the next pattern character (a trailing `\` stands for itself), and any
other character matches itself. -/
def likeM : List Char → List Char → Bool
  | [], s => s.isEmpty
  | p :: ps, s =>
    if p = '%' then
      match s with
      | [] => likeM ps []
      | c :: s' => likeM ps (c :: s') || likeM (p :: ps) s'
    else if p = '\\' then
      match ps with
      | [] =>
        match s with
        | [] => false
        | c :: s' => decide (c = '\\') && likeM [] s'
      | q :: ps' =>
        match s with
        | [] => false
        | c :: s' => decide (c = q) && likeM ps' s'
    else if p = '_' then
      match s with
      | [] => false
      | _ :: s' => likeM ps s'
    else
      match s with
      | [] => false
      | c :: s' => decide (c = p) && likeM ps s'
termination_by p s => p.length + s.length

/-- `field LIKE %s` with parameter `'%' + term + '%'` under the default
case-insensitive collation. -/
def likeContains (field term : String) : Bool :=
  likeM ('%' :: (ciKey term ++ ['%'])) (ciKey field)

/-- Three-way comparison of character lists by code point
(lexicographic), the order `ORDER BY` uses on the case-folded keys. -/
def lexCmp : List Char → List Char → Ordering
  | [], [] => .eq
  | [], _ :: _ => .lt
  | _ :: _, [] => .gt
  | a :: as, b :: bs =>
    if a.toNat < b.toNat then .lt
    else if b.toNat < a.toNat then .gt
    else lexCmp as bs

/-- Three-way comparison of integers. -/
def intCmp (a b : Int) : Ordering :=
  if a < b then .lt else if b < a then .gt else .eq

/-- `ORDER BY department, year, name` on students, the string columns
compared by the case-insensitive collation. -/
def studentCmp (a b : Student) : Ordering :=
  (lexCmp (ciKey a.department) (ciKey b.department)).then
    ((intCmp a.year b.year).then (lexCmp (ciKey a.name) (ciKey b.name)))

/-- Non-strict order derived from `studentCmp`. -/
def studentOrd (a b : Student) : Prop := studentCmp a b ≠ .gt

instance : DecidableRel studentOrd := fun a b => by
  unfold studentOrd; infer_instance

/-- `StudentModule.search_students`: `SELECT * FROM students WHERE usn
LIKE %s OR name LIKE %s OR department LIKE %s ORDER BY department, year,
name` with the `'%term%'` parameter. -/
def search_students (st : DBState) (search_term : String) : List Student :=
  List.insertionSort studentOrd
    (st.students.filter (fun s =>
      likeContains s.usn search_term || likeContains s.name search_term ||
        likeContains s.department search_term))

/-- Result row of `get_event_winners`. -/
structure WinnerRow where
  usn : String
  name : String
  department : String
  year : Int
  performance : String
deriving Repr, DecidableEq

/-- The `CASE WHEN` order key of `get_event_winners`: Winner before
Runner-up before anything else. -/
def winnerKey (performance : String) : Nat :=
  if performance = "Winner" then 1
  else if performance = "Runner-up" then 2
  else 3

/-- Order on winner rows induced by `winnerKey`. -/
def winnerOrd (a b : WinnerRow) : Prop :=
  winnerKey a.performance ≤ winnerKey b.performance

instance : DecidableRel winnerOrd := fun a b => by
  unfold winnerOrd; infer_instance

/-- `ParticipationModule.get_event_winners`: students joined with the
event's participation rows whose performance is Winner or Runner-up,
ordered by the `CASE WHEN` key (Winner first). -/
def get_event_winners (st : DBState) (event_id : Nat) : List WinnerRow :=
  List.insertionSort winnerOrd
    (st.students.flatMap (fun s =>
      (st.participation.filter (fun p =>
        decide (p.usn = s.usn ∧ p.event_id = event_id ∧
          (p.performance = "Winner" ∨ p.performance = "Runner-up")))).map
        (fun p => ⟨s.usn, s.name, s.department, s.year, p.performance⟩)))

/-- The participation rows of student `u` (`JOIN participation p ON
s.usn = p.usn` restricted to one student). -/
def partsOf (st : DBState) (u : String) : List Participation :=
  st.participation.filter (fun p => decide (p.usn = u))

/-- `COUNT(CASE WHEN p.performance = perf THEN 1 END)` for student `u`. -/
def perfCount (st : DBState) (u perf : String) : Nat :=
  (st.participation.filter (fun p =>
    decide (p.usn = u ∧ p.performance = perf))).length

/-- The inner join `students s JOIN participation p ON s.usn = p.usn`. -/
def joinedRows (st : DBState) : List (Student × Participation) :=
  st.students.flatMap (fun s => (partsOf st s.usn).map (fun p => (s, p)))

/-- Result row of `get_top_participating_students`. -/
structure TopStudentRow where
  usn : String
  name : String
  department : String
  year : Int
  participation_count : Nat
deriving Repr, DecidableEq

/-- `ORDER BY participation_count DESC`. -/
def topStudentOrd (a b : TopStudentRow) : Prop :=
  b.participation_count ≤ a.participation_count

instance : DecidableRel topStudentOrd := fun a b => by
  unfold topStudentOrd; infer_instance

/-- `ReportsModule.get_top_participating_students`: participation count
per student over the inner join (students with no rows excluded),
ranked descending, `LIMIT %s`. -/
def get_top_participating_students (st : DBState) (limit : Nat := 10) :
    List TopStudentRow :=
  (List.insertionSort topStudentOrd
    (st.students.filterMap (fun s =>
      let c := (partsOf st s.usn).length
      if 0 < c then some ⟨s.usn, s.name, s.department, s.year, c⟩
      else none))).take limit

/-- `ROUND(num / den, 2)` on the exact ratio of two counts, represented
in hundredths (rounding half away from zero; the counts are
nonnegative). -/
def round2cents (num den : Nat) : Nat := (200 * num + den) / (2 * den)

/-- Result row of `get_department_wise_participation`; `avg_per_student`
holds `ROUND(COUNT(p.id) / COUNT(DISTINCT s.usn), 2)` in hundredths. -/
structure DeptRow where
  department : String
  total_students : Nat
  unique_events_participated : Nat
  total_participations : Nat
  avg_per_student : Nat
deriving Repr, DecidableEq

/-- `ORDER BY total_participations DESC`. -/
def deptOrd (a b : DeptRow) : Prop :=
  b.total_participations ≤ a.total_participations

instance : DecidableRel deptOrd := fun a b => by
  unfold deptOrd; infer_instance

/-- One department's row of `get_department_wise_participation`, built
from the left-join rows of that department. -/
def deptRowOf (st : DBState) (d : String) : DeptRow :=
  let ss := st.students.filter (fun s => decide (s.department = d))
  let joined := ss.flatMap (fun s => partsOf st s.usn)
  { department := d,
    total_students := (ss.map (fun s => s.usn)).dedup.length,
    unique_events_participated := (joined.map (·.event_id)).dedup.length,
    total_participations := joined.length,
    avg_per_student :=
      round2cents joined.length (ss.map (fun s => s.usn)).dedup.length }

/-- `ReportsModule.get_department_wise_participation`: per department of
the left join `students LEFT JOIN participation` — distinct student
count, distinct event count, participation row count, and the rounded
average rows per student. -/
def get_department_wise_participation (st : DBState) : List DeptRow :=
  List.insertionSort deptOrd
    (((st.students.map (·.department)).dedup).map (deptRowOf st))

/-- Result row of `get_events_by_participation`. -/
structure EventPartRow where
  event_id : Nat
  name : String
  event_type : String
  department : String
  event_date : String
  participant_count : Nat
deriving Repr, DecidableEq

/-- `ORDER BY participant_count DESC`. -/
def eventPartOrd (a b : EventPartRow) : Prop :=
  b.participant_count ≤ a.participant_count

instance : DecidableRel eventPartOrd := fun a b => by
  unfold eventPartOrd; infer_instance

/-- `ReportsModule.get_events_by_participation`: every event with its
participant count (left join, zero included), ranked descending,
`LIMIT %s`. -/
def get_events_by_participation (st : DBState) (limit : Nat := 10) :
    List EventPartRow :=
  (List.insertionSort eventPartOrd
    (st.events.map (fun e =>
      ⟨e.event_id, e.name, e.event_type, e.department, e.event_date,
       (st.participation.filter (fun p =>
         decide (p.event_id = e.event_id))).length⟩))).take limit

/-- Result row of `get_performance_summary`. -/
structure PerfSummaryRow where
  department : String
  winners : Nat
  runners_up : Nat
  participants : Nat
deriving Repr, DecidableEq

/-- `ORDER BY winners DESC, runners_up DESC`. -/
def perfSummaryOrd (a b : PerfSummaryRow) : Prop :=
  b.winners < a.winners ∨
    (b.winners = a.winners ∧ b.runners_up ≤ a.runners_up)

instance : DecidableRel perfSummaryOrd := fun a b => by
  unfold perfSummaryOrd; infer_instance

/-- `ReportsModule.get_performance_summary`: per department of the inner
join, counts of Winner / Runner-up / Participant rows. -/
def get_performance_summary (st : DBState) : List PerfSummaryRow :=
  let rows := joinedRows st
  List.insertionSort perfSummaryOrd
    (((rows.map (fun r => r.1.department)).dedup).map (fun d =>
      let rs := rows.filter (fun r => decide (r.1.department = d))
      { department := d,
        winners :=
          (rs.filter (fun r => decide (r.2.performance = "Winner"))).length,
        runners_up :=
          (rs.filter (fun r => decide (r.2.performance = "Runner-up"))).length,
        participants :=
          (rs.filter (fun r =>
            decide (r.2.performance = "Participant"))).length }))

/-- Result row of `get_event_type_statistics`. -/
structure EventTypeRow where
  event_type : String
  total_events : Nat
  total_unique_students : Nat
  total_participations : Nat
deriving Repr, DecidableEq

/-- `ORDER BY total_participations DESC`. -/
def eventTypeOrd (a b : EventTypeRow) : Prop :=
  b.total_participations ≤ a.total_participations

instance : DecidableRel eventTypeOrd := fun a b => by
  unfold eventTypeOrd; infer_instance

/-- `ReportsModule.get_event_type_statistics`: per event type of the
left join `events LEFT JOIN participation` — distinct event count,
distinct student count, participation row count. -/
def get_event_type_statistics (st : DBState) : List EventTypeRow :=
  List.insertionSort eventTypeOrd
    (((st.events.map (·.event_type)).dedup).map (fun t =>
      let evs := st.events.filter (fun e => decide (e.event_type = t))
      let rows := evs.flatMap (fun e =>
        st.participation.filter (fun p => decide (p.event_id = e.event_id)))
      { event_type := t,
        total_events := (evs.map (·.event_id)).dedup.length,
        total_unique_students := (rows.map (·.usn)).dedup.length,
        total_participations := rows.length }))

/-- Result row of `get_monthly_event_summary`: note the fields the
source actually produces — a `YYYY-MM` month string (any year), event
count, distinct participant count, and TOTAL participation count; no
Winner or Runner-up counts. -/
structure MonthlyRow where
  month : String
  total_events : Nat
  total_participants : Nat
  total_participations : Nat
deriving Repr, DecidableEq

/-- `ORDER BY month` (ascending). -/
def monthlyOrd (a b : MonthlyRow) : Prop :=
  lexCmp a.month.data b.month.data ≠ .gt

instance : DecidableRel monthlyOrd := fun a b => by
  unfold monthlyOrd; infer_instance

/-- `ReportsModule.get_monthly_event_summary`: grouped by
`DATE_FORMAT(event_date, '%Y-%m')` over `events LEFT JOIN
participation`; it takes no year argument and groups the months of all
years together. -/
def get_monthly_event_summary (st : DBState) : List MonthlyRow :=
  List.insertionSort monthlyOrd
    (((st.events.map (fun e => monthOf e.event_date)).dedup).map (fun m =>
      let evs := st.events.filter (fun e => decide (monthOf e.event_date = m))
      let rows := evs.flatMap (fun e =>
        st.participation.filter (fun p => decide (p.event_id = e.event_id)))
      { month := m,
        total_events := (evs.map (·.event_id)).dedup.length,
        total_participants := (rows.map (·.usn)).dedup.length,
        total_participations := rows.length }))

/-- Result row of `get_top_performers`. -/
structure PerformerRow where
  usn : String
  name : String
  department : String
  year : Int
  wins : Nat
  runner_ups : Nat
  total_participations : Nat
  points : Nat
deriving Repr, DecidableEq

/-- `ORDER BY points DESC`. -/
def performerOrd (a b : PerformerRow) : Prop := b.points ≤ a.points

instance : DecidableRel performerOrd := fun a b => by
  unfold performerOrd; infer_instance

/-- One student's row of `get_top_performers`: `none` when the student
has no participation rows (inner join), otherwise the Winner count,
Runner-up count, total rows, and the weighted score
`wins * 3 + runner_ups * 2 + participants`. -/
def performerRowOf (st : DBState) (s : Student) : Option PerformerRow :=
  if 0 < (partsOf st s.usn).length then
    some ⟨s.usn, s.name, s.department, s.year,
          perfCount st s.usn "Winner", perfCount st s.usn "Runner-up",
          (partsOf st s.usn).length,
          perfCount st s.usn "Winner" * 3 +
            perfCount st s.usn "Runner-up" * 2 +
            perfCount st s.usn "Participant"⟩
  else none

/-- `ReportsModule.get_top_performers`: per student of the inner join —
Winner count, Runner-up count, total rows, and the weighted point score,
ranked by points descending, `LIMIT %s`. -/
def get_top_performers (st : DBState) (limit : Nat := 10) :
    List PerformerRow :=
  (List.insertionSort performerOrd
    (st.students.filterMap (performerRowOf st))).take limit

/-- The data content of `ReportsModule.generate_comprehensive_report`:
the source takes no filter arguments, computes these seven sections over
the whole store, and concatenates their formatted text tables (with a
timestamp header) into one flat report string; the embedding keeps the
section data and drops the text formatting. -/
structure ComprehensiveReport where
  top_students : List TopStudentRow
  dept_participation : List DeptRow
  top_events : List EventPartRow
  performance : List PerfSummaryRow
  event_stats : List EventTypeRow
  monthly : List MonthlyRow
  top_performers : List PerformerRow
deriving Repr, DecidableEq

/-- `ReportsModule.generate_comprehensive_report` (section data, in the
source's order of assembly). -/
def generate_comprehensive_report (st : DBState) : ComprehensiveReport :=
  ⟨get_top_participating_students st 10,
   get_department_wise_participation st,
   get_events_by_participation st 10,
   get_performance_summary st,
   get_event_type_statistics st,
   get_monthly_event_summary st,
   get_top_performers st 10⟩

/-- The empty store (fresh schema). -/
def dbEmpty : DBState := ⟨[], [], [], 1, 1⟩

/-- A store with students in two departments and events in two years and
two event types; the single 2024 event has one Winner and one Runner-up
row. -/
def dbTwoYears : DBState :=
  { students := [⟨"1MS21CS001", "Asha", "CSE", 3⟩,
                 ⟨"1MS21EC002", "Ravi", "ECE", 2⟩],
    events := [⟨1, "Hack", "Technical", "CSE", "2024-05-10"⟩,
               ⟨2, "Dance", "Cultural", "ECE", "2025-06-15"⟩],
    participation := [⟨1, "1MS21CS001", 1, "Winner"⟩,
                      ⟨2, "1MS21EC002", 1, "Runner-up"⟩],
    nextEventId := 3, nextPartId := 3 }

/-- C6: `add_student` validates before inserting: the identifier format
check accepts `1MS21CS001` and rejects `MS21CS001` (missing leading
digit), `1ms21cs001` (lowercase) and `1MS21CS0011` (extra digit), each
of which makes `add_student` fail; `add_student` with `year = 0` or
`year = 6` fails while `year = 1` and `year = 5` succeed (other fields
valid). -/
theorem C6_add_student_validation :
    validate_usn "1MS21CS001" = true ∧
    validate_usn "MS21CS001" = false ∧
    validate_usn "1ms21cs001" = false ∧
    validate_usn "1MS21CS0011" = false ∧
    (add_student dbEmpty "MS21CS001" "Asha" "CSE" 3).ok = false ∧
    (add_student dbEmpty "1ms21cs001" "Asha" "CSE" 3).ok = false ∧
    (add_student dbEmpty "1MS21CS0011" "Asha" "CSE" 3).ok = false ∧
    (add_student dbEmpty "1MS21CS001" "Asha" "CSE" 0).ok = false ∧
    (add_student dbEmpty "1MS21CS001" "Asha" "CSE" 6).ok = false ∧
    (add_student dbEmpty "1MS21CS001" "Asha" "CSE" 1).ok = true ∧
    (add_student dbEmpty "1MS21CS001" "Asha" "CSE" 5).ok = true := by
  decide

/-- C10: Python's `$` anchor in `re.match` also matches just before a
single trailing newline, so `validate_usn` accepts a valid USN followed
by `'\n'`, and `add_student` inserts such an identifier. -/
theorem C10_trailing_newline_usn :
    validate_usn "1MS21CS001\n" = true ∧
    (add_student dbEmpty "1MS21CS001\n" "Asha" "CSE" 3).ok = true ∧
    (add_student dbEmpty "1MS21CS001\n" "Asha" "CSE" 3).state.students =
      [⟨"1MS21CS001\n", "Asha", "CSE", 3⟩] := by
  decide

/-- C2: what the code's only monthly summary actually computes.  The
spec's `monthly_summary(year)` (with per-month Winner and Runner-up
counts, only months of the given year) does not exist in `reports.py`:
`get_monthly_event_summary` takes no year argument — here its output on
`dbTwoYears` mixes a 2024 month and a 2025 month in one result — and its
rows carry the TOTAL participation count (2 for 2024-05, whose Winner
count is 1 and Runner-up count is 1), with no Winner/Runner-up fields.
The CLI (`main.py`, reports menu option 6) calls the missing
`get_monthly_summary(year)` and would fail. -/
theorem C2_monthly_summary_code_eval :
    get_monthly_event_summary dbTwoYears =
      [⟨"2024-05", 1, 2, 2⟩, ⟨"2025-06", 1, 0, 0⟩] ∧
    (get_monthly_event_summary dbTwoYears).map (·.month) =
      ["2024-05", "2025-06"] := by
  decide

/-- C8: what the code's comprehensive report actually computes.
`generate_comprehensive_report` in `reports.py` accepts no year,
department or type filter and assembles every section over the whole
store: on `dbTwoYears` its sections span both departments, both event
types and both years.  The CLI (`main.py`, reports menu option 8) calls
it as `generate_comprehensive_report(year, department, event_type)` and
expects a keyed bundle with filtered totals, which the source (a
no-argument function returning one formatted text report) does not
provide. -/
theorem C8_comprehensive_report_code_eval :
    (generate_comprehensive_report dbTwoYears).dept_participation.map
        (·.department) = ["CSE", "ECE"] ∧
    (generate_comprehensive_report dbTwoYears).event_stats.map
        (·.event_type) = ["Technical", "Cultural"] ∧
    (generate_comprehensive_report dbTwoYears).monthly.map (·.month) =
      ["2024-05", "2025-06"] ∧
    (generate_comprehensive_report dbTwoYears).top_performers.map (·.usn) =
      ["1MS21CS001", "1MS21EC002"] ∧
    generate_comprehensive_report dbTwoYears =
      ⟨get_top_participating_students dbTwoYears 10,
       get_department_wise_participation dbTwoYears,
       get_events_by_participation dbTwoYears 10,
       get_performance_summary dbTwoYears,
       get_event_type_statistics dbTwoYears,
       get_monthly_event_summary dbTwoYears,
       get_top_performers dbTwoYears 10⟩ := by
  refine ⟨by decide, by decide, by decide, by decide, rfl⟩

/-- C9 counterexample: `search_students` passes the term into an SQL
`LIKE '%term%'` pattern, so a term containing the wildcard `_` matches
students that do not contain it literally: searching `"_"` returns the
sole student even though none of their three fields contains an
underscore. -/
theorem C9_search_students_counterexample :
    search_students ⟨[⟨"1AB12CD123", "Bob", "CSE", 2⟩], [], [], 1, 1⟩ "_" =
      [⟨"1AB12CD123", "Bob", "CSE", 2⟩] ∧
    ¬ (ciKey "_" <:+: ciKey "1AB12CD123") ∧
    ¬ (ciKey "_" <:+: ciKey "Bob") ∧
    ¬ (ciKey "_" <:+: ciKey "CSE") := by
  refine ⟨?_, by decide, by decide, by decide⟩
  simp [search_students, likeContains, ciKey, likeM, List.insertionSort,
    List.filter]


/-- Number of Participation rows for one (student, event) pair. -/
def pairCount (st : DBState) (u : String) (e : Nat) : Nat :=
  st.participation.countP (fun p => decide (p.usn = u ∧ p.event_id = e))

/-- The at-most-one-Participation-row-per-(student, event) invariant. -/
def UniquePairs (st : DBState) : Prop := ∀ u e, pairCount st u e ≤ 1

/-- Overwriting performances of a pair changes no pair's row count. -/
theorem countP_setPerf (l : List Participation) (usn : String) (eid : Nat)
    (perf : String) (u : String) (e : Nat) :
    (l.map (fun p => if p.usn = usn ∧ p.event_id = eid then
        { p with performance := perf } else p)).countP
      (fun p => decide (p.usn = u ∧ p.event_id = e)) =
    l.countP (fun p => decide (p.usn = u ∧ p.event_id = e)) := by
  rw [List.countP_map]
  apply List.countP_congr
  intro p _
  by_cases h : p.usn = usn ∧ p.event_id = eid <;> simp [Function.comp, h]

/-- A string contains any prefix of itself built by `++`. -/
theorem strContains_append_self (t rest : String) : strContains (t ++ rest) t :=
  ⟨[], rest.data, by simp [String.data_append]⟩

/-- `update_performance` preserves the one-row-per-pair invariant. -/
theorem uniquePairs_update_performance (st : DBState) (u : String) (e : Nat)
    (pf : String) (h : UniquePairs st) :
    UniquePairs (update_performance st u e pf).state := by
  unfold update_performance
  split
  · exact h
  · split
    · exact h
    · intro a b
      show (st.participation.map _).countP _ ≤ 1
      rw [countP_setPerf]
      exact h a b

/-- `delete_participation` preserves the one-row-per-pair invariant. -/
theorem uniquePairs_delete_participation (st : DBState) (u : String) (e : Nat)
    (h : UniquePairs st) :
    UniquePairs (delete_participation st u e).state := by
  unfold delete_participation
  split
  · exact h
  · intro a b
    exact le_trans (List.Sublist.countP_le _ (List.filter_sublist _)) (h a b)

/-- C1: for an existing student and event and a valid performance,
`register_participation` succeeds; afterwards there is exactly one
Participation row for the pair and it carries the new performance; when
a row already existed the message contains "Updated" and no row is
added, otherwise the message contains "Registered" and exactly one row
is added; and the at-most-one-row-per-pair invariant is preserved by
`register_participation`, `update_performance` and
`delete_participation` (the Ledger's mutating operations). -/
theorem C1_register_upsert (st : DBState) (usn : String) (event_id : Nat)
    (perf : String) (husn : usn ≠ "") (heid : event_id ≠ 0)
    (hperf : perf = "Winner" ∨ perf = "Runner-up" ∨ perf = "Participant")
    (hs : (get_student_by_usn st usn).isSome = true)
    (he : (get_event_by_id st event_id).isSome = true)
    (hinv : UniquePairs st) :
    (register_participation st usn event_id perf).ok = true ∧
    pairCount (register_participation st usn event_id perf).state usn event_id
      = 1 ∧
    (∀ p ∈ (register_participation st usn event_id perf).state.participation,
      p.usn = usn → p.event_id = event_id → p.performance = perf) ∧
    UniquePairs (register_participation st usn event_id perf).state ∧
    ((get_participation st usn event_id).isSome = true →
      strContains (register_participation st usn event_id perf).msg
        "Updated" ∧
      (register_participation st usn event_id perf).state.participation.length
        = st.participation.length) ∧
    (get_participation st usn event_id = none →
      strContains (register_participation st usn event_id perf).msg
        "Registered" ∧
      (register_participation st usn event_id perf).state.participation.length
        = st.participation.length + 1) ∧
    (∀ (st' : DBState) (u : String) (e : Nat) (pf : String),
      UniquePairs st' → UniquePairs (update_performance st' u e pf).state) ∧
    (∀ (st' : DBState) (u : String) (e : Nat),
      UniquePairs st' → UniquePairs (delete_participation st' u e).state) := by
  obtain ⟨s0, hs'⟩ := Option.isSome_iff_exists.mp hs
  obtain ⟨e0, he'⟩ := Option.isSome_iff_exists.mp he
  have hcond1 : ¬ (usn = "" ∨ event_id = 0) := by
    rintro (h | h) <;> [exact husn h; exact heid h]
  have hcond2 : ¬ ¬ (perf = "Winner" ∨ perf = "Runner-up" ∨
      perf = "Participant") := fun hn => hn hperf
  cases hex : get_participation st usn event_id with
  | some q =>
    have hr : register_participation st usn event_id perf =
        ⟨true, "Updated " ++ s0.name ++ "\x27s participation in " ++ e0.name,
         { st with participation := st.participation.map (fun p =>
             if p.usn = usn ∧ p.event_id = event_id then
               { p with performance := perf }
             else p) }⟩ := by
      simp only [register_participation, hs', he', hex,
        if_neg hcond1, if_neg hcond2]
    have hq := List.find?_some hex
    have hqm := List.mem_of_find?_eq_some hex
    simp only [decide_eq_true_eq] at hq
    refine ⟨by rw [hr], ?_, ?_, ?_, ?_, ?_,
      uniquePairs_update_performance, uniquePairs_delete_participation⟩
    · rw [hr]
      show (st.participation.map _).countP _ = 1
      rw [countP_setPerf]
      have h1 : 0 < st.participation.countP
          (fun p => decide (p.usn = usn ∧ p.event_id = event_id)) :=
        List.countP_pos_iff.mpr ⟨q, hqm, by simp [hq.1, hq.2]⟩
      have h2 := hinv usn event_id
      unfold pairCount at h2
      omega
    · rw [hr]
      intro p hp hu hev
      obtain ⟨p0, hp0, rfl⟩ := List.mem_map.mp hp
      by_cases hc : p0.usn = usn ∧ p0.event_id = event_id
      · simp [hc]
      · simp only [if_neg hc] at hu hev ⊢
        exact absurd ⟨hu, hev⟩ hc
    · rw [hr]
      intro a b
      show (st.participation.map _).countP _ ≤ 1
      rw [countP_setPerf]
      exact hinv a b
    · intro _
      rw [hr]
      constructor
      · show strContains ("Updated " ++ s0.name ++
          "\x27s participation in " ++ e0.name) "Updated"
        rw [show ("Updated " : String) = "Updated" ++ " " from rfl]
        simp only [String.append_assoc]
        exact strContains_append_self _ _
      · simp
    · intro hnone
      exact absurd hnone (by simp [hex])
  | none =>
    have hr : register_participation st usn event_id perf =
        ⟨true, "Registered " ++ s0.name ++ " for " ++ e0.name,
         { st with
           participation := st.participation ++
             [⟨st.nextPartId, usn, event_id, perf⟩],
           nextPartId := st.nextPartId + 1 }⟩ := by
      simp only [register_participation, hs', he', hex,
        if_neg hcond1, if_neg hcond2]
    have hz : st.participation.countP
        (fun p => decide (p.usn = usn ∧ p.event_id = event_id)) = 0 := by
      rw [List.countP_eq_zero]
      intro p hp
      exact List.find?_eq_none.mp hex p hp
    refine ⟨by rw [hr], ?_, ?_, ?_, ?_, ?_,
      uniquePairs_update_performance, uniquePairs_delete_participation⟩
    · rw [hr]
      show (st.participation ++ _).countP _ = 1
      rw [List.countP_append, hz]
      simp
    · rw [hr]
      intro p hp hu hev
      rcases List.mem_append.mp hp with hmem | hmem
      · exact absurd (by simp [hu, hev]) (List.find?_eq_none.mp hex p hmem)
      · simp only [List.mem_singleton] at hmem
        subst hmem
        rfl
    · rw [hr]
      intro a b
      show (st.participation ++ _).countP _ ≤ 1
      rw [List.countP_append]
      by_cases hc : usn = a ∧ event_id = b
      · obtain ⟨rfl, rfl⟩ := hc
        rw [hz]
        simp
      · have hone : List.countP (fun p => decide (p.usn = a ∧ p.event_id = b))
            [(⟨st.nextPartId, usn, event_id, perf⟩ : Participation)] = 0 := by
          simp [hc]
        rw [hone, Nat.add_zero]
        exact hinv a b
    · intro hsome
      exact absurd hsome (by simp [hex])
    · intro _
      rw [hr]
      refine ⟨?_, by simp⟩
      show strContains ("Registered " ++ s0.name ++ " for " ++ e0.name)
        "Registered"
      rw [show ("Registered " : String) = "Registered" ++ " " from rfl]
      simp only [String.append_assoc]
      exact strContains_append_self _ _

/-- A store holding one student, one event, and one Participation row
linking them. -/
def dbPair : DBState :=
  { students := [⟨"1MS21CS001", "Asha", "CSE", 3⟩],
    events := [⟨1, "Hack", "Technical", "CSE", "2024-05-10"⟩],
    participation := [⟨1, "1MS21CS001", 1, "Participant"⟩],
    nextEventId := 2, nextPartId := 2 }

/-- Witness for C1: re-registering the existing pair of `dbPair` with
performance "Winner" succeeds and leaves exactly one row for the pair. -/
theorem C1_register_upsert_witness :
    (register_participation dbPair "1MS21CS001" 1 "Winner").ok = true ∧
    pairCount (register_participation dbPair "1MS21CS001" 1 "Winner").state
      "1MS21CS001" 1 = 1 := by
  have h := C1_register_upsert dbPair "1MS21CS001" 1 "Winner"
    (by decide) (by decide) (Or.inl rfl) (by decide) (by decide)
    (fun u e => le_trans (List.countP_le_length _) (by decide))
  exact ⟨h.1, h.2.1⟩


/-- C7: every failing outcome (`ok = false`) of a Registry or Ledger
mutating operation — which in this embedding is exactly a validation,
not-found or conflict error, since storage itself cannot fail — is
reported as a `(false, message)` result with the stored state unchanged;
in particular `add_student` on an already-present USN fails without
inserting, and `update_event` on an absent event id fails without
writing. -/
theorem C7_failures_leave_state_unchanged :
    (∀ (st : DBState) (usn name dept : String) (year : Int),
      (add_student st usn name dept year).ok = false →
      (add_student st usn name dept year).state = st) ∧
    (∀ (st : DBState) (usn name dept : String) (year : Int),
      (update_student st usn name dept year).ok = false →
      (update_student st usn name dept year).state = st) ∧
    (∀ (st : DBState) (usn : String),
      (delete_student st usn).ok = false → (delete_student st usn).state = st) ∧
    (∀ (st : DBState) (n t d dt : String),
      (add_event st n t d dt).ok = false → (add_event st n t d dt).state = st) ∧
    (∀ (st : DBState) (eid : Nat) (n t d dt : String),
      (update_event st eid n t d dt).ok = false →
      (update_event st eid n t d dt).state = st) ∧
    (∀ (st : DBState) (eid : Nat),
      (delete_event st eid).ok = false → (delete_event st eid).state = st) ∧
    (∀ (st : DBState) (u : String) (e : Nat) (pf : String),
      (register_participation st u e pf).ok = false →
      (register_participation st u e pf).state = st) ∧
    (∀ (st : DBState) (u : String) (e : Nat) (pf : String),
      (update_performance st u e pf).ok = false →
      (update_performance st u e pf).state = st) ∧
    (∀ (st : DBState) (u : String) (e : Nat),
      (delete_participation st u e).ok = false →
      (delete_participation st u e).state = st) ∧
    (∀ (st : DBState) (usn name dept : String) (year : Int) (s0 : Student),
      get_student_by_usn st usn = some s0 →
      (add_student st usn name dept year).ok = false ∧
      (add_student st usn name dept year).state = st) ∧
    (∀ (st : DBState) (eid : Nat) (n t d dt : String),
      get_event_by_id st eid = none →
      (update_event st eid n t d dt).ok = false ∧
      (update_event st eid n t d dt).state = st) := by
  refine ⟨?_, ?_, ?_, ?_, ?_, ?_, ?_, ?_, ?_, ?_, ?_⟩
  · intro st usn name dept year h
    unfold add_student at h ⊢
    repeat' split at h
    all_goals simp_all
  · intro st usn name dept year h
    unfold update_student at h ⊢
    repeat' split at h
    all_goals simp_all
  · intro st usn h
    unfold delete_student at h ⊢
    repeat' split at h
    all_goals simp_all
  · intro st n t d dt h
    unfold add_event at h ⊢
    repeat' split at h
    all_goals simp_all
  · intro st eid n t d dt h
    unfold update_event at h ⊢
    repeat' split at h
    all_goals simp_all
  · intro st eid h
    unfold delete_event at h ⊢
    repeat' split at h
    all_goals simp_all
  · intro st u e pf h
    unfold register_participation at h ⊢
    repeat' split at h
    all_goals try simp_all
    all_goals (repeat' split) <;> rfl
  · intro st u e pf h
    unfold update_performance at h ⊢
    repeat' split at h
    all_goals try simp_all
    all_goals (repeat' split) <;> rfl
  · intro st u e h
    unfold delete_participation at h ⊢
    repeat' split at h
    all_goals simp_all
  · intro st usn name dept year s0 hdup
    unfold add_student
    repeat' split
    all_goals simp_all
  · intro st eid n t d dt habs
    unfold update_event
    repeat' split
    all_goals simp_all

/-- Witness for C7: a duplicate `add_student` on `dbPair` and an
`update_event` on an absent id of the empty store both fail and leave
the state unchanged. -/
theorem C7_failures_witness :
    (add_student dbPair "1MS21CS001" "Bob" "CSE" 3).ok = false ∧
    (add_student dbPair "1MS21CS001" "Bob" "CSE" 3).state = dbPair ∧
    (update_event dbEmpty 5 "Hack" "Technical" "CSE" "2025-01-01").ok
      = false ∧
    (update_event dbEmpty 5 "Hack" "Technical" "CSE" "2025-01-01").state
      = dbEmpty := by
  have h := C7_failures_leave_state_unchanged
  have h1 := h.2.2.2.2.2.2.2.2.2.1 dbPair "1MS21CS001" "Bob" "CSE" 3
    ⟨"1MS21CS001", "Asha", "CSE", 3⟩ (by decide)
  have h2 := h.2.2.2.2.2.2.2.2.2.2 dbEmpty 5 "Hack" "Technical" "CSE"
    "2025-01-01" (by decide)
  exact ⟨h1.1, h1.2, h2.1, h2.2⟩
/-- Filtering by a disjunction of disjoint predicates splits, up to
permutation, into the two filters. -/
theorem filter_or_perm {α : Type} (f g : α → Bool) :
    ∀ (l : List α), (∀ a ∈ l, ¬ (f a = true ∧ g a = true)) →
    (l.filter (fun a => f a || g a)).Perm (l.filter f ++ l.filter g) := by
  intro l
  induction l with
  | nil => intro _; simp
  | cons x xs ih =>
    intro hd
    have hx := hd x (List.mem_cons_self x xs)
    have ih' := ih (fun a ha => hd a (List.mem_cons_of_mem x ha))
    by_cases hf : f x = true
    · have hg : g x = false := by
        cases hgv : g x
        · rfl
        · exact absurd ⟨hf, hgv⟩ hx
      simp only [List.filter_cons, hf, hg, Bool.true_or, if_true,
        List.cons_append]
      exact ih'.cons x
    · have hf' : f x = false := Bool.eq_false_iff.mpr hf
      by_cases hg : g x = true
      · simp only [List.filter_cons, hf', hg, Bool.false_or, if_true,
          Bool.false_eq_true, if_false]
        exact (ih'.cons x).trans List.perm_middle.symm
      · have hg' : g x = false := Bool.eq_false_iff.mpr hg
        simp only [List.filter_cons, hf', hg', Bool.false_or,
          Bool.false_eq_true, if_false]
        exact ih'

/-- The student-major join of each student's matching participation rows
is, up to permutation, the participation-major filter by "some listed
student matches", provided the listed usns are distinct (each row then
joins at most one student). -/
theorem flatjoin_perm (l : List Participation) (q : Participation → Bool) :
    ∀ (ss : List Student), (ss.map (fun s => s.usn)).Nodup →
    (ss.flatMap (fun s =>
      l.filter (fun p => decide (p.usn = s.usn) && q p))).Perm
    (l.filter (fun p => ss.any (fun t => decide (t.usn = p.usn)) && q p)) := by
  intro ss
  induction ss with
  | nil => intro _; simp
  | cons s ss' ih =>
    intro hnd
    simp only [List.map_cons, List.nodup_cons] at hnd
    obtain ⟨hne, hnd'⟩ := hnd
    have ihp := ih hnd'
    have hdisj : ∀ p ∈ l,
        ¬ ((fun p => decide (s.usn = p.usn) && q p) p = true ∧
           (fun p => ss'.any (fun t => decide (t.usn = p.usn)) && q p) p
             = true) := by
      intro p _ hcontra
      obtain ⟨h1, h2⟩ := hcontra
      simp only [Bool.and_eq_true, decide_eq_true_eq,
        List.any_eq_true] at h1 h2
      obtain ⟨t, ht, htu⟩ := h2.1
      exact hne (List.mem_map.mpr ⟨t, ht, htu.trans h1.1.symm⟩)
    have key := filter_or_perm _ _ l hdisj
    have hcong : l.filter (fun p =>
          (s :: ss').any (fun t => decide (t.usn = p.usn)) && q p) =
        l.filter (fun p => (decide (s.usn = p.usn) && q p) ||
          (ss'.any (fun t => decide (t.usn = p.usn)) && q p)) := by
      apply List.filter_congr
      intro p _
      simp only [List.any_cons]
      have : decide (s.usn = p.usn) = decide (p.usn = s.usn) := by
        rw [decide_eq_decide]; exact eq_comm
      rw [this]
      cases decide (p.usn = s.usn) <;> cases ss'.any fun t => decide (t.usn = p.usn) <;>
        cases q p <;> rfl
    have hflip : l.filter (fun p => decide (p.usn = s.usn) && q p) =
        l.filter (fun p => decide (s.usn = p.usn) && q p) := by
      apply List.filter_congr
      intro p _
      have : decide (p.usn = s.usn) = decide (s.usn = p.usn) := by
        rw [decide_eq_decide]; exact eq_comm
      rw [this]
    rw [List.flatMap_cons, hcong, hflip]
    exact ((List.Perm.refl _).append ihp).trans key.symm

/-- `flatjoin_perm` specialised to `partsOf` (no extra row condition). -/
theorem flatjoin_partsOf (st : DBState) (ss : List Student)
    (hnd : (ss.map (fun s => s.usn)).Nodup) :
    (ss.flatMap (fun s => partsOf st s.usn)).Perm
      (st.participation.filter (fun p =>
        ss.any (fun t => decide (t.usn = p.usn)))) := by
  have h := flatjoin_perm st.participation (fun _ => true) ss hnd
  simpa [partsOf] using h

/-- The `students` primary-key invariant: usns are pairwise distinct. -/
def UniqueUsns (st : DBState) : Prop :=
  (st.students.map (fun s => s.usn)).Nodup

instance (st : DBState) : Decidable (UniqueUsns st) := by
  unfold UniqueUsns; infer_instance

/-- C4: under the primary-key invariant, every row of
`get_department_wise_participation` reports a positive distinct-student
count equal to the department's student count, a participation total
equal to the number of participation rows of the department's students,
and an average equal to `ROUND(total / students, 2)` (in hundredths);
a department with zero participation rows gets average `0` with no
division fault, and a row with 3 students and 9 rows gets average
`3.00`; every department with at least one student gets a row. -/
theorem C4_department_average (st : DBState) (h : UniqueUsns st) :
    (∀ r ∈ get_department_wise_participation st,
      0 < r.total_students ∧
      r.total_students = (st.students.filter (fun s =>
        decide (s.department = r.department))).length ∧
      r.total_participations = (st.participation.filter (fun p =>
        (st.students.filter (fun s =>
          decide (s.department = r.department))).any
            (fun t => decide (t.usn = p.usn)))).length ∧
      r.avg_per_student = round2cents r.total_participations
        r.total_students ∧
      (r.total_participations = 0 → r.avg_per_student = 0) ∧
      (r.total_students = 3 → r.total_participations = 9 →
        r.avg_per_student = 300)) ∧
    (∀ s ∈ st.students, ∃ r ∈ get_department_wise_participation st,
      r.department = s.department) := by
  constructor
  · intro r hr
    unfold get_department_wise_participation at hr
    rw [List.mem_insertionSort, List.mem_map] at hr
    obtain ⟨d, hd, rfl⟩ := hr
    have hsub : ((st.students.filter (fun s =>
        decide (s.department = d))).map (fun s => s.usn)).Sublist
        (st.students.map (fun s => s.usn)) :=
      List.Sublist.map _ (List.filter_sublist _)
    have hnd : ((st.students.filter (fun s =>
        decide (s.department = d))).map (fun s => s.usn)).Nodup :=
      List.Nodup.sublist hsub h
    have hded : ((st.students.filter (fun s =>
        decide (s.department = d))).map (fun s => s.usn)).dedup.length =
        (st.students.filter (fun s => decide (s.department = d))).length := by
      rw [List.Nodup.dedup hnd, List.length_map]
    have hjoin := flatjoin_partsOf st
      (st.students.filter (fun s => decide (s.department = d))) hnd
    have hdep : (deptRowOf st d).department = d := rfl
    rw [hdep]
    have hts : (deptRowOf st d).total_students =
        (st.students.filter (fun s => decide (s.department = d))).length := by
      simp only [deptRowOf]
      exact hded
    have htp : (deptRowOf st d).total_participations =
        (st.participation.filter (fun p =>
          (st.students.filter (fun s => decide (s.department = d))).any
            (fun t => decide (t.usn = p.usn)))).length := by
      simp only [deptRowOf]
      exact hjoin.length_eq
    have hpos : 0 < (st.students.filter (fun s =>
        decide (s.department = d))).length := by
      rw [List.mem_dedup, List.mem_map] at hd
      obtain ⟨s, hs, rfl⟩ := hd
      exact List.length_pos_of_mem
        (List.mem_filter.mpr ⟨hs, by simp⟩)
    have havg : (deptRowOf st d).avg_per_student =
        round2cents (deptRowOf st d).total_participations
          (deptRowOf st d).total_students := rfl
    refine ⟨by rw [hts]; exact hpos, hts, htp, havg, ?_, ?_⟩
    · intro h0
      rw [havg, h0, hts]
      unfold round2cents
      exact Nat.div_eq_of_lt (by omega)
    · intro h3 h9
      rw [havg, h3, h9]
      norm_num [round2cents]
  · intro s hs
    refine ⟨deptRowOf st s.department, ?_, rfl⟩
    unfold get_department_wise_participation
    rw [List.mem_insertionSort, List.mem_map]
    exact ⟨s.department, List.mem_dedup.mpr (List.mem_map.mpr ⟨s, hs, rfl⟩),
      rfl⟩

instance : IsTotal PerformerRow performerOrd :=
  ⟨fun a b => Nat.le_total b.points a.points⟩

instance : IsTrans PerformerRow performerOrd :=
  ⟨fun _ _ _ hab hbc => Nat.le_trans hbc hab⟩

/-- A produced performer row carries its student's usn. -/
theorem performerRowOf_usn (st : DBState) (s : Student) (r : PerformerRow)
    (hf : performerRowOf st s = some r) : r.usn = s.usn := by
  unfold performerRowOf at hf
  split at hf
  · exact ((Option.some.injEq _ _).mp hf) ▸ rfl
  · exact Option.noConfusion hf

/-- The usns of the performer rows form a sublist of the student usns. -/
theorem filterMap_map_usn_sublist (st : DBState) :
    ∀ (l : List Student),
    ((l.filterMap (performerRowOf st)).map (fun r => r.usn)).Sublist
      (l.map (fun s => s.usn)) := by
  intro l
  induction l with
  | nil => simp
  | cons s l' ih =>
    cases hfs : performerRowOf st s with
    | none =>
      simp only [List.filterMap_cons, hfs, List.map_cons]
      exact ih.cons _
    | some r =>
      simp only [List.filterMap_cons, hfs, List.map_cons]
      rw [performerRowOf_usn st s r hfs]
      exact ih.cons₂ _

/-- C5: under the primary-key invariant, `get_top_performers` returns at
most `limit` rows, at most one per student, only for students with at
least one participation row, each carrying
`points = 3 * wins + 2 * runner_ups + participant-count`; the sequence
is ordered by points descending, and an empty participation table yields
the empty sequence. -/
theorem C5_top_performers (st : DBState) (h : UniqueUsns st) (limit : Nat) :
    (get_top_performers st limit).length ≤ limit ∧
    ((get_top_performers st limit).map (fun r => r.usn)).Nodup ∧
    (∀ r ∈ get_top_performers st limit, ∃ s ∈ st.students, r.usn = s.usn ∧
      0 < (partsOf st s.usn).length ∧
      r.wins = perfCount st s.usn "Winner" ∧
      r.runner_ups = perfCount st s.usn "Runner-up" ∧
      r.points = 3 * r.wins + 2 * r.runner_ups +
        perfCount st s.usn "Participant") ∧
    List.Pairwise performerOrd (get_top_performers st limit) ∧
    (st.participation = [] → get_top_performers st limit = []) := by
  refine ⟨?_, ?_, ?_, ?_, ?_⟩
  · exact List.length_take_le _ _
  · have h1 : ((st.students.filterMap (performerRowOf st)).map
        (fun r => r.usn)).Nodup :=
      List.Nodup.sublist (filterMap_map_usn_sublist st st.students) h
    have h2 : ((List.insertionSort performerOrd
        (st.students.filterMap (performerRowOf st))).map
          (fun r => r.usn)).Nodup :=
      ((List.perm_insertionSort performerOrd _).map _).symm.nodup h1
    exact List.Nodup.sublist
      (List.Sublist.map _ (List.take_sublist _ _)) h2
  · intro r hr
    unfold get_top_performers at hr
    have hr1 := List.take_subset _ _ hr
    rw [List.mem_insertionSort] at hr1
    obtain ⟨s, hs, hfs⟩ := List.mem_filterMap.mp hr1
    refine ⟨s, hs, ?_⟩
    unfold performerRowOf at hfs
    split at hfs
    · obtain rfl := (Option.some.injEq _ _).mp hfs
      refine ⟨rfl, by assumption, rfl, rfl, ?_⟩
      show perfCount st s.usn "Winner" * 3 +
          perfCount st s.usn "Runner-up" * 2 +
          perfCount st s.usn "Participant" =
        3 * perfCount st s.usn "Winner" + 2 * perfCount st s.usn "Runner-up" +
          perfCount st s.usn "Participant"
      ring
    · exact Option.noConfusion hfs
  · exact List.Pairwise.sublist (List.take_sublist _ _)
      (List.sorted_insertionSort performerOrd _)
  · intro hp
    have hrows : st.students.filterMap (performerRowOf st) = [] := by
      rw [List.filterMap_eq_nil_iff]
      intro s _
      simp [performerRowOf, partsOf, hp]
    unfold get_top_performers
    rw [hrows]
    simp

/-- `flatMap` respects pointwise equality of the functions. -/
theorem flatMap_congr {α β : Type} (l : List α) (f g : α → List β)
    (h : ∀ a ∈ l, f a = g a) : l.flatMap f = l.flatMap g := by
  induction l with
  | nil => rfl
  | cons x xs ih =>
    rw [List.flatMap_cons, List.flatMap_cons, h x (List.mem_cons_self x xs),
      ih (fun a ha => h a (List.mem_cons_of_mem x ha))]

instance : IsTotal WinnerRow winnerOrd :=
  ⟨fun a b => Nat.le_total (winnerKey a.performance)
    (winnerKey b.performance)⟩

instance : IsTrans WinnerRow winnerOrd :=
  ⟨fun _ _ _ => Nat.le_trans⟩

/-- C3: under the primary-key and foreign-key invariants,
`get_event_winners` returns (as `(usn, performance)` pairs, up to
permutation) exactly the event's participation rows whose performance is
Winner or Runner-up, never Participant, and in the output every Winner
row precedes every Runner-up row. -/
theorem C3_event_winners (st : DBState) (event_id : Nat)
    (h : UniqueUsns st)
    (hfk : ∀ p ∈ st.participation, ∃ s ∈ st.students, s.usn = p.usn) :
    ((get_event_winners st event_id).map
        (fun r => (r.usn, r.performance))).Perm
      ((st.participation.filter (fun p => decide (p.event_id = event_id ∧
        (p.performance = "Winner" ∨ p.performance = "Runner-up")))).map
        (fun p => (p.usn, p.performance))) ∧
    (∀ r ∈ get_event_winners st event_id,
      r.performance = "Winner" ∨ r.performance = "Runner-up") ∧
    List.Pairwise (fun a b => ¬ (a.performance = "Runner-up" ∧
      b.performance = "Winner")) (get_event_winners st event_id) := by
  refine ⟨?_, ?_, ?_⟩
  · set q : Participation → Bool := fun p =>
      decide (p.event_id = event_id ∧
        (p.performance = "Winner" ∨ p.performance = "Runner-up")) with hq
    unfold get_event_winners
    have e1 := (List.perm_insertionSort winnerOrd
      (st.students.flatMap (fun s =>
        (st.participation.filter (fun p =>
          decide (p.usn = s.usn ∧ p.event_id = event_id ∧
            (p.performance = "Winner" ∨ p.performance = "Runner-up")))).map
          (fun p => ⟨s.usn, s.name, s.department, s.year,
            p.performance⟩)))).map (fun r : WinnerRow => (r.usn, r.performance))
    have e2 : ((st.students.flatMap (fun s =>
        (st.participation.filter (fun p =>
          decide (p.usn = s.usn ∧ p.event_id = event_id ∧
            (p.performance = "Winner" ∨ p.performance = "Runner-up")))).map
          (fun p => (⟨s.usn, s.name, s.department, s.year,
            p.performance⟩ : WinnerRow)))).map
          (fun r : WinnerRow => (r.usn, r.performance))) =
        st.students.flatMap (fun s =>
          (st.participation.filter (fun p =>
            decide (p.usn = s.usn) && q p)).map
            (fun p => (p.usn, p.performance))) := by
      rw [List.map_flatMap]
      apply flatMap_congr
      intro s _
      have hfil : st.participation.filter (fun p =>
          decide (p.usn = s.usn ∧ p.event_id = event_id ∧
            (p.performance = "Winner" ∨ p.performance = "Runner-up"))) =
          st.participation.filter (fun p => decide (p.usn = s.usn) && q p) :=
        List.filter_congr (fun p _ => by
          rw [hq]
          by_cases hA : p.usn = s.usn <;>
            by_cases hX : p.event_id = event_id ∧
              (p.performance = "Winner" ∨ p.performance = "Runner-up") <;>
            simp [hA, hX])
      rw [List.map_map, ← hfil]
      apply List.map_congr_left
      intro p hp
      have hm := (List.mem_filter.mp hp).2
      simp only [decide_eq_true_eq] at hm
      show (s.usn, p.performance) = (p.usn, p.performance)
      rw [hm.1]
    have e3 := (flatjoin_perm st.participation q st.students h).map
      (fun p : Participation => (p.usn, p.performance))
    have e4 : st.participation.filter (fun p =>
        st.students.any (fun t => decide (t.usn = p.usn)) && q p) =
        st.participation.filter q := by
      apply List.filter_congr
      intro p hp
      obtain ⟨s, hs, hsu⟩ := hfk p hp
      have : st.students.any (fun t => decide (t.usn = p.usn)) = true :=
        List.any_eq_true.mpr ⟨s, hs, by simp [hsu]⟩
      rw [this, Bool.true_and]
    rw [List.map_flatMap] at e3
    refine e1.trans ?_
    rw [e2]
    refine e3.trans ?_
    rw [e4]
  · intro r hr
    unfold get_event_winners at hr
    rw [List.mem_insertionSort, List.mem_flatMap] at hr
    obtain ⟨s, _, hr2⟩ := hr
    obtain ⟨p, hp, rfl⟩ := List.mem_map.mp hr2
    have hm := (List.mem_filter.mp hp).2
    simp only [decide_eq_true_eq] at hm
    exact hm.2.2
  · apply List.Pairwise.imp ?_ (List.sorted_insertionSort winnerOrd _)
    intro a b hab hcontra
    obtain ⟨ha, hb⟩ := hcontra
    unfold winnerOrd at hab
    rw [ha, hb] at hab
    norm_num [winnerKey] at hab
    rw [if_neg (by decide : ¬ ("Runner-up" : String) = "Winner")] at hab
    omega

/-- A department with 3 students and 9 participation rows. -/
def db39 : DBState :=
  { students := [⟨"1MS21CS001", "A", "CSE", 1⟩, ⟨"1MS21CS002", "B", "CSE", 2⟩,
                 ⟨"1MS21CS003", "C", "CSE", 3⟩],
    events := [⟨1, "E1", "Technical", "CSE", "2024-01-10"⟩,
               ⟨2, "E2", "Technical", "CSE", "2024-02-10"⟩,
               ⟨3, "E3", "Technical", "CSE", "2024-03-10"⟩],
    participation := [⟨1, "1MS21CS001", 1, "Participant"⟩,
                      ⟨2, "1MS21CS001", 2, "Participant"⟩,
                      ⟨3, "1MS21CS001", 3, "Participant"⟩,
                      ⟨4, "1MS21CS002", 1, "Participant"⟩,
                      ⟨5, "1MS21CS002", 2, "Participant"⟩,
                      ⟨6, "1MS21CS002", 3, "Participant"⟩,
                      ⟨7, "1MS21CS003", 1, "Participant"⟩,
                      ⟨8, "1MS21CS003", 2, "Participant"⟩,
                      ⟨9, "1MS21CS003", 3, "Participant"⟩],
    nextEventId := 4, nextPartId := 10 }

/-- Witness for C4: on `db39` (one department, 3 students, 9 rows) the
average is the rounded ratio, and the single row reads
(CSE, 3 students, 3 events, 9 rows, average 3.00). -/
theorem C4_department_average_witness :
    (∀ r ∈ get_department_wise_participation db39,
      r.avg_per_student = round2cents r.total_participations
        r.total_students) ∧
    get_department_wise_participation db39 = [⟨"CSE", 3, 3, 9, 300⟩] := by
  have h := C4_department_average db39 (by decide)
  exact ⟨fun r hr => (h.1 r hr).2.2.2.1, by decide⟩

/-- Witness for C5: the top-performer list of `dbTwoYears` is within the
limit and sorted by points descending, and the empty store yields the
empty sequence. -/
theorem C5_top_performers_witness :
    (get_top_performers dbTwoYears 10).length ≤ 10 ∧
    List.Pairwise performerOrd (get_top_performers dbTwoYears 10) ∧
    get_top_performers dbEmpty 10 = [] := by
  have h := C5_top_performers dbTwoYears (by decide) 10
  have h0 := C5_top_performers dbEmpty (by decide) 10
  exact ⟨h.1, h.2.2.2.1, h0.2.2.2.2 rfl⟩

/-- Witness for C3: on `dbTwoYears`, event 1's winner list has only
Winner or Runner-up rows, with Winners first. -/
theorem C3_event_winners_witness :
    (∀ r ∈ get_event_winners dbTwoYears 1,
      r.performance = "Winner" ∨ r.performance = "Runner-up") ∧
    List.Pairwise (fun a b => ¬ (a.performance = "Runner-up" ∧
      b.performance = "Winner")) (get_event_winners dbTwoYears 1) := by
  have h := C3_event_winners dbTwoYears 1 (by decide) (by decide)
  exact ⟨h.2.1, h.2.2⟩

/-- `likeM` on the empty pattern matches only the empty string. -/
theorem likeM_nil (s : List Char) : likeM [] s = s.isEmpty := by
  simp [likeM]

/-- Unfolding `likeM` for a leading `%` against the empty string. -/
theorem likeM_percent_nil (ps : List Char) :
    likeM ('%' :: ps) [] = likeM ps [] := by
  rw [likeM.eq_def]
  simp

/-- Unfolding `likeM` for a leading `%` against a nonempty string. -/
theorem likeM_percent_cons (ps : List Char) (c : Char) (s' : List Char) :
    likeM ('%' :: ps) (c :: s') =
      (likeM ps (c :: s') || likeM ('%' :: ps) s') := by
  conv_lhs => rw [likeM.eq_def]
  simp

/-- A pattern starting with a literal (or `_`) never matches `[]`. -/
theorem likeM_lit_cons_nil (p : Char) (ps : List Char)
    (h1 : p ≠ '%') (h3 : p ≠ '\\') :
    likeM (p :: ps) [] = false := by
  rw [likeM.eq_def]
  simp [h1, h3]

/-- Unfolding `likeM` for a leading literal character. -/
theorem likeM_lit_cons (p : Char) (ps : List Char) (c : Char) (s' : List Char)
    (h1 : p ≠ '%') (h2 : p ≠ '_') (h3 : p ≠ '\\') :
    likeM (p :: ps) (c :: s') = (decide (c = p) && likeM ps s') := by
  rw [likeM.eq_def]
  simp [h1, h2, h3]

/-- The pattern `%` matches every string. -/
theorem likeM_percent (s : List Char) : likeM ['%'] s = true := by
  induction s with
  | nil => rw [likeM_percent_nil, likeM_nil]; rfl
  | cons c s' ih =>
    rw [likeM_percent_cons, ih]
    simp

/-- No `LIKE` metacharacter (`%`, `_`, or the escape `\`) occurs. -/
def NoWildcards (cs : List Char) : Prop :=
  ∀ c ∈ cs, c ≠ '%' ∧ c ≠ '_' ∧ c ≠ '\\'

/-- A wildcard-free pattern followed by `%` matches exactly the strings
it prefixes. -/
theorem likeM_lit_prefix_iff (pat : List Char) (hw : NoWildcards pat) :
    ∀ (s : List Char), (likeM (pat ++ ['%']) s = true ↔ pat <+: s) := by
  induction pat with
  | nil =>
    intro s
    simp only [List.nil_append, likeM_percent, List.nil_prefix]
  | cons a pat' ih =>
    intro s
    obtain ⟨ha1, ha2, ha3⟩ := hw a (List.mem_cons_self a pat')
    have ih' := ih (fun c hc => hw c (List.mem_cons_of_mem a hc))
    cases s with
    | nil =>
      rw [List.cons_append, likeM_lit_cons_nil a _ ha1 ha3]
      simp
    | cons c s' =>
      rw [List.cons_append, likeM_lit_cons a _ c s' ha1 ha2 ha3]
      rw [Bool.and_eq_true, decide_eq_true_eq, ih' s']
      constructor
      · rintro ⟨rfl, hp⟩
        exact List.cons_prefix_cons.mpr ⟨rfl, hp⟩
      · intro hp
        obtain ⟨heq, hp'⟩ := List.cons_prefix_cons.mp hp
        exact ⟨heq.symm, hp'⟩

/-- A leading `%` matches exactly when the rest matches some suffix. -/
theorem likeM_percent_drop (ps : List Char) :
    ∀ (s : List Char),
    (likeM ('%' :: ps) s = true ↔ ∃ n, likeM ps (s.drop n) = true) := by
  intro s
  induction s with
  | nil =>
    rw [likeM_percent_nil]
    constructor
    · intro h
      exact ⟨0, h⟩
    · rintro ⟨n, hn⟩
      rwa [List.drop_nil] at hn
  | cons c s' ih =>
    rw [likeM_percent_cons, Bool.or_eq_true, ih]
    constructor
    · rintro (h | ⟨n, hn⟩)
      · exact ⟨0, h⟩
      · exact ⟨n + 1, hn⟩
    · rintro ⟨n, hn⟩
      cases n with
      | zero => exact Or.inl hn
      | succ m => exact Or.inr ⟨m, hn⟩

/-- `%pat%` with wildcard-free `pat` matches exactly the strings that
contain `pat` contiguously. -/
theorem likeM_infix_iff (pat : List Char) (hw : NoWildcards pat)
    (s : List Char) :
    likeM ('%' :: (pat ++ ['%'])) s = true ↔ pat <:+: s := by
  rw [likeM_percent_drop]
  constructor
  · rintro ⟨n, hn⟩
    rw [likeM_lit_prefix_iff pat hw] at hn
    exact List.infix_iff_prefix_suffix.mpr ⟨s.drop n, hn, List.drop_suffix n s⟩
  · intro hinf
    obtain ⟨t, hpre, hsuf⟩ := List.infix_iff_prefix_suffix.mp hinf
    refine ⟨s.length - t.length, ?_⟩
    rw [likeM_lit_prefix_iff pat hw, ← List.suffix_iff_eq_drop.mp hsuf]
    exact hpre

/-- `Char.ofNat` round-trips on code points below the surrogate range. -/
theorem char_toNat_ofNat_valid (n : Nat) (h : n < 0xd800) :
    (Char.ofNat n).toNat = n := by
  simp [Char.ofNat, Char.toNat]
  rw [dif_pos (Or.inl h)]
  simp [Char.ofNatAux, UInt32.toNat, BitVec.toNat_ofNatLt]

/-- ASCII upcasing maps nothing new onto `%`, `_` or `\` (code points
37, 95, 92): only those characters themselves upcase to them. -/
theorem toUpper_special (c d : Char)
    (hd : d.toNat = 37 ∨ d.toNat = 95 ∨ d.toNat = 92)
    (h : c.toUpper = d) : c = d := by
  simp only [Char.toUpper] at h
  split at h
  · exfalso
    have hn : (Char.ofNat (c.toNat - 32)).toNat = c.toNat - 32 := by
      apply char_toNat_ofNat_valid
      omega
    rw [h] at hn
    omega
  · exact h

/-- Case folding preserves wildcard-freeness. -/
theorem noWildcards_map_toUpper (cs : List Char) (h : NoWildcards cs) :
    NoWildcards (cs.map Char.toUpper) := by
  intro c hc
  obtain ⟨c0, hc0, rfl⟩ := List.mem_map.mp hc
  obtain ⟨h1, h2, h3⟩ := h c0 hc0
  refine ⟨?_, ?_, ?_⟩
  · intro he
    exact h1 (toUpper_special c0 '%' (Or.inl (by decide)) he)
  · intro he
    exact h2 (toUpper_special c0 '_' (Or.inr (Or.inl (by decide))) he)
  · intro he
    exact h3 (toUpper_special c0 '\\' (Or.inr (Or.inr (by decide))) he)

/-- Characters with equal code points are equal. -/
theorem char_toNat_inj (a b : Char) (h : a.toNat = b.toNat) : a = b := by
  have := congrArg Char.ofNat h
  rwa [Char.ofNat_toNat, Char.ofNat_toNat] at this

/-- `lexCmp` returns `eq` exactly on equal lists. -/
theorem lexCmp_eq_iff : ∀ (x y : List Char), lexCmp x y = .eq ↔ x = y := by
  intro x
  induction x with
  | nil =>
    intro y
    cases y <;> simp [lexCmp]
  | cons a as ih =>
    intro y
    cases y with
    | nil => simp [lexCmp]
    | cons b bs =>
      unfold lexCmp
      rcases Nat.lt_trichotomy a.toNat b.toNat with h1 | h1 | h1
      · rw [if_pos h1]
        constructor
        · intro h
          exact Ordering.noConfusion h
        · intro h
          obtain ⟨rfl, -⟩ := List.cons_eq_cons.mp h
          omega
      · rw [if_neg (by omega), if_neg (by omega), ih bs]
        have hab : a = b := char_toNat_inj a b h1
        subst hab
        constructor
        · intro h
          rw [h]
        · intro h
          exact (List.cons_eq_cons.mp h).2
      · rw [if_neg (by omega), if_pos h1]
        constructor
        · intro h
          exact Ordering.noConfusion h
        · intro h
          obtain ⟨rfl, -⟩ := List.cons_eq_cons.mp h
          omega

/-- `lexCmp`'s strict order is transitive. -/
theorem lexCmp_lt_trans : ∀ (x y z : List Char),
    lexCmp x y = .lt → lexCmp y z = .lt → lexCmp x z = .lt := by
  intro x
  induction x with
  | nil =>
    intro y z hxy hyz
    cases z with
    | nil =>
      cases y with
      | nil => exact hxy
      | cons b bs => exact absurd hyz (by simp [lexCmp])
    | cons c cs => simp [lexCmp]
  | cons a as ih =>
    intro y z hxy hyz
    cases y with
    | nil => exact absurd hxy (by simp [lexCmp])
    | cons b bs =>
      cases z with
      | nil => exact absurd hyz (by simp [lexCmp])
      | cons c cs =>
        unfold lexCmp at hxy hyz ⊢
        rcases Nat.lt_trichotomy a.toNat b.toNat with h1 | h1 | h1
        · rcases Nat.lt_trichotomy b.toNat c.toNat with h2 | h2 | h2
          · rw [if_pos (by omega)]
          · rw [if_pos (by omega)]
          · rw [if_neg (by omega), if_pos h2] at hyz
            exact absurd hyz (by simp)
        · rcases Nat.lt_trichotomy b.toNat c.toNat with h2 | h2 | h2
          · rw [if_pos (by omega)]
          · rw [if_neg (by omega), if_neg (by omega)] at hxy hyz ⊢
            exact ih bs cs hxy hyz
          · rw [if_neg (by omega), if_pos h2] at hyz
            exact absurd hyz (by simp)
        · rw [if_neg (by omega), if_pos h1] at hxy
          exact absurd hxy (by simp)

/-- `lexCmp` is antisymmetric under argument swap. -/
theorem lexCmp_swap (x : List Char) : ∀ (y : List Char),
    lexCmp y x = (lexCmp x y).swap := by
  induction x with
  | nil =>
    intro y
    cases y <;> rfl
  | cons a as ih =>
    intro y
    cases y with
    | nil => rfl
    | cons b bs =>
      unfold lexCmp
      rcases Nat.lt_trichotomy a.toNat b.toNat with h1 | h1 | h1
      · rw [if_pos h1, if_neg (by omega), if_pos h1]
        rfl
      · rw [if_neg (by omega), if_neg (by omega), if_neg (by omega),
          if_neg (by omega)]
        exact ih bs
      · rw [if_pos h1, if_neg (by omega), if_pos h1]
        rfl

/-- `lexCmp`'s non-strict order is transitive. -/
theorem lexCmp_le_trans (x y z : List Char) (hxy : lexCmp x y ≠ .gt)
    (hyz : lexCmp y z ≠ .gt) : lexCmp x z ≠ .gt := by
  cases h1 : lexCmp x y with
  | gt => exact absurd h1 hxy
  | eq =>
    obtain rfl := (lexCmp_eq_iff x y).mp h1
    exact hyz
  | lt =>
    cases h2 : lexCmp y z with
    | gt => exact absurd h2 hyz
    | eq =>
      obtain rfl := (lexCmp_eq_iff y z).mp h2
      rw [h1]
      decide
    | lt =>
      rw [lexCmp_lt_trans x y z h1 h2]
      decide

/-- `intCmp` returns `eq` exactly on equal integers. -/
theorem intCmp_eq_iff (a b : Int) : intCmp a b = .eq ↔ a = b := by
  unfold intCmp
  split
  · exact ⟨fun h => Ordering.noConfusion h, fun h => by omega⟩
  · split
    · exact ⟨fun h => Ordering.noConfusion h, fun h => by omega⟩
    · exact ⟨fun _ => by omega, fun _ => rfl⟩

/-- `intCmp` returns `lt` exactly below. -/
theorem intCmp_lt_iff (a b : Int) : intCmp a b = .lt ↔ a < b := by
  unfold intCmp
  split
  · exact ⟨fun _ => by omega, fun _ => rfl⟩
  · split
    · exact ⟨fun h => Ordering.noConfusion h, fun h => by omega⟩
    · exact ⟨fun h => Ordering.noConfusion h, fun h => by omega⟩

/-- `intCmp` is antisymmetric under argument swap. -/
theorem intCmp_swap (a b : Int) : intCmp b a = (intCmp a b).swap := by
  unfold intCmp
  rcases lt_trichotomy a b with h | h | h
  · rw [if_pos h, if_neg (by omega), if_pos h]
    rfl
  · rw [if_neg (by omega), if_neg (by omega), if_neg (by omega),
      if_neg (by omega)]
    rfl
  · rw [if_pos h, if_neg (by omega), if_pos h]
    rfl

/-- `Ordering.swap` distributes over `Ordering.then`. -/
theorem ordering_then_swap (o p : Ordering) :
    (o.then p).swap = o.swap.then p.swap := by
  cases o <;> rfl

/-- `studentCmp` is antisymmetric under argument swap. -/
theorem studentCmp_swap (a b : Student) :
    studentCmp b a = (studentCmp a b).swap := by
  unfold studentCmp
  rw [lexCmp_swap (ciKey a.department) (ciKey b.department),
    intCmp_swap a.year b.year, lexCmp_swap (ciKey a.name) (ciKey b.name),
    ordering_then_swap, ordering_then_swap]

instance : IsTotal Student studentOrd := by
  constructor
  intro a b
  unfold studentOrd
  cases h : studentCmp a b with
  | lt => exact Or.inl (by simp [h])
  | eq => exact Or.inl (by simp [h])
  | gt =>
    refine Or.inr ?_
    rw [studentCmp_swap, h]
    decide

instance : IsTrans Student studentOrd := by
  constructor
  intro a b c hab hbc
  unfold studentOrd studentCmp at *
  cases hd1 : lexCmp (ciKey a.department) (ciKey b.department) with
  | gt =>
    rw [hd1] at hab
    exact absurd rfl hab
  | lt =>
    cases hd2 : lexCmp (ciKey b.department) (ciKey c.department) with
    | gt =>
      rw [hd2] at hbc
      exact absurd rfl hbc
    | lt =>
      rw [lexCmp_lt_trans _ _ _ hd1 hd2]
      simp [Ordering.then]
    | eq =>
      obtain he := (lexCmp_eq_iff _ _).mp hd2
      rw [← he, hd1]
      simp [Ordering.then]
  | eq =>
    obtain he1 := (lexCmp_eq_iff _ _).mp hd1
    rw [hd1] at hab
    simp only [Ordering.then] at hab
    rw [he1]
    cases hd2 : lexCmp (ciKey b.department) (ciKey c.department) with
    | gt =>
      rw [hd2] at hbc
      exact absurd rfl hbc
    | lt => simp [Ordering.then]
    | eq =>
      rw [hd2] at hbc
      simp only [Ordering.then] at hbc ⊢
      cases hy1 : intCmp a.year b.year with
      | gt =>
        rw [hy1] at hab
        exact absurd rfl hab
      | lt =>
        cases hy2 : intCmp b.year c.year with
        | gt =>
          rw [hy2] at hbc
          exact absurd rfl hbc
        | lt =>
          have hlt : intCmp a.year c.year = .lt := by
            rw [intCmp_lt_iff] at hy1 hy2 ⊢
            omega
          rw [hlt]
          simp [Ordering.then]
        | eq =>
          obtain hye := (intCmp_eq_iff _ _).mp hy2
          rw [← hye, hy1]
          simp [Ordering.then]
      | eq =>
        obtain hye := (intCmp_eq_iff _ _).mp hy1
        rw [hy1] at hab
        simp only [Ordering.then] at hab
        rw [hye]
        cases hy2 : intCmp b.year c.year with
        | gt =>
          rw [hy2] at hbc
          exact absurd rfl hbc
        | lt => simp [Ordering.then]
        | eq =>
          rw [hy2] at hbc
          simp only [Ordering.then] at hbc ⊢
          exact lexCmp_le_trans _ _ _ hab hbc

instance (cs : List Char) : Decidable (NoWildcards cs) := by
  unfold NoWildcards; infer_instance

/-- C9 (amended): for a search term containing no `LIKE` metacharacter
(`%`, `_`, `\`), `search_students` returns exactly the students one of
whose identifier, name or department contains the term as a substring
compared case-insensitively, ordered by department, then year, then
name (the string columns compared by the case-insensitive collation).
For terms containing a metacharacter the claimed substring reading fails
(see the counterexample). -/
theorem C9_search_students_amended (st : DBState) (t : String)
    (hw : NoWildcards t.data) :
    (search_students st t).Perm (st.students.filter (fun s =>
      likeContains s.usn t || likeContains s.name t ||
        likeContains s.department t)) ∧
    (∀ s, s ∈ search_students st t ↔ s ∈ st.students ∧
      (ciKey t <:+: ciKey s.usn ∨ ciKey t <:+: ciKey s.name ∨
        ciKey t <:+: ciKey s.department)) ∧
    List.Pairwise studentOrd (search_students st t) := by
  have hchar : ∀ f : String,
      (likeContains f t = true ↔ ciKey t <:+: ciKey f) := by
    intro f
    unfold likeContains
    exact likeM_infix_iff (ciKey t) (noWildcards_map_toUpper _ hw) (ciKey f)
  refine ⟨?_, ?_, ?_⟩
  · exact List.perm_insertionSort _ _
  · intro s
    unfold search_students
    rw [List.mem_insertionSort, List.mem_filter]
    constructor
    · rintro ⟨hm, hcond⟩
      refine ⟨hm, ?_⟩
      simp only [Bool.or_eq_true] at hcond
      rcases hcond with (h | h) | h
      · exact Or.inl ((hchar _).mp h)
      · exact Or.inr (Or.inl ((hchar _).mp h))
      · exact Or.inr (Or.inr ((hchar _).mp h))
    · rintro ⟨hm, hcond⟩
      refine ⟨hm, ?_⟩
      simp only [Bool.or_eq_true]
      rcases hcond with h | h | h
      · exact Or.inl (Or.inl ((hchar _).mpr h))
      · exact Or.inl (Or.inr ((hchar _).mpr h))
      · exact Or.inr ((hchar _).mpr h)
  · exact List.sorted_insertionSort studentOrd _

/-- Witness for C9 (amended): searching `dbTwoYears` for "cs". -/
theorem C9_search_students_amended_witness :
    (∀ s, s ∈ search_students dbTwoYears "cs" ↔ s ∈ dbTwoYears.students ∧
      (ciKey "cs" <:+: ciKey s.usn ∨ ciKey "cs" <:+: ciKey s.name ∨
        ciKey "cs" <:+: ciKey s.department)) ∧
    List.Pairwise studentOrd (search_students dbTwoYears "cs") := by
  have h := C9_search_students_amended dbTwoYears "cs" (by decide)
  exact ⟨h.2.1, h.2.2⟩
